import Mathlib

/-!
Verification development for the pixel-dei simulation core.

Shallow embedding of the repository code in Lean 4:
* Python floats are modelled as rationals (exact arithmetic, no rounding).
* numpy arrays are lists or explicit grid structures.
* Randomness (numpy RNG draws), the resource grid and the environment
  sampler are modelled as oracle parameters that the theorems quantify over.
Each definition mirrors one function of the source tree; the file ends with
the theorems about those definitions.
-/

set_option maxHeartbeats 1000000
set_option linter.unusedVariables false


namespace PixelDei

/-! ## Biome enumeration (src/world/biome.py, class Biome) -/

inductive Biome where
  | OCEAN
  | WATER
  | BEACH
  | DESERT
  | ROCK_DESERT
  | GRASSLAND
  | FOREST
  | RAINFOREST
  | SAVANNA
  | SWAMP
  | MANGROVE
  | MOUNTAIN
  | HILLS
  | PLAIN
  | TUNDRA
  | SNOW
  | GLACIER
  | VOLCANIC
  | LAKE
  | RIVER
  deriving DecidableEq, Repr, Inhabited

/-- Members of the Biome enum in declaration order, as iterated by
Python `list(Biome)` and by the index mapping `{b: i for i, b in enumerate(Biome)}`. -/
def biomeList : List Biome :=
  [.OCEAN, .WATER, .BEACH, .DESERT, .ROCK_DESERT, .GRASSLAND, .FOREST, .RAINFOREST,
   .SAVANNA, .SWAMP, .MANGROVE, .MOUNTAIN, .HILLS, .PLAIN, .TUNDRA, .SNOW,
   .GLACIER, .VOLCANIC, .LAKE, .RIVER]

/-- Index of a biome in the enum order (the integer stored in `biome_map`). -/
def biomeIndex (b : Biome) : ℕ := biomeList.indexOf b

/-- src/world/biome.py, `biome_from_env`: the ordered decision cascade mapping
environmental scalars to one Biome.  `vegetation_index` is accepted and unused,
exactly as in the source.  The local noise is clamped to [0,1] up front
(`n = max(0.0, min(1.0, local_noise))`). -/
def biome_from_env (elevation temperature humidity pressure : ℚ)
    (global_o2 organic_layer mineral_layer vegetation_index local_noise : ℚ) : Biome :=
  -- alt/temp/hum/lat_frac are direct aliases of the first four parameters
  let n : ℚ := max 0 (min 1 local_noise)
  if elevation < 0.12 then .OCEAN
  else if elevation < 0.16 then (if humidity > 0.55 then .LAKE else .WATER)
  else if 0.16 ≤ elevation ∧ elevation < 0.20 then .BEACH
  else if elevation > 0.85 ∧ temperature < 0.35 ∧ pressure < 0.35 then .GLACIER
  else if elevation > 0.80 ∧ humidity < 0.25 ∧ temperature > 0.6 then .VOLCANIC
  else if elevation > 0.80 then
    (if temperature < 0.35 ∧ pressure < 0.4 then .SNOW else .MOUNTAIN)
  else if pressure < 0.25 ∧ elevation > 0.50 then
    (if temperature < 0.35 then .TUNDRA else .SNOW)
  else if temperature > 0.6 ∧ humidity < 0.45 ∧ pressure > 0.45 then
    (if elevation > 0.55 then .ROCK_DESERT else .DESERT)
  else if temperature > 0.8 ∧ humidity < 0.35 then .DESERT
  else if organic_layer < 0.02 then
    (if temperature > 0.55 then
      (if humidity < 0.35 then (if n > 0.4 then .ROCK_DESERT else .DESERT)
       else if humidity < 0.6 then
         (if elevation > 0.6 ∧ n > 0.6 then .MOUNTAIN
          else if n > 0.5 then .ROCK_DESERT else .DESERT)
       else (if n > 0.3 then .PLAIN else .HILLS))
     else if 0.30 < temperature ∧ temperature ≤ 0.55 then
      (if elevation < 0.35 then (if n > 0.2 then .PLAIN else .DESERT)
       else if elevation < 0.65 then (if n > 0.3 then .HILLS else .ROCK_DESERT)
       else .MOUNTAIN)
     else
      (if elevation > 0.65 ∧ n > 0.4 then .MOUNTAIN
       else if n > 0.5 then .ROCK_DESERT else .TUNDRA))
  else if pressure > 0.4 ∧ humidity > 0.8 ∧ temperature > 0.6 ∧
          organic_layer > 0.2 ∧ global_o2 > 0.15 then .RAINFOREST
  else if humidity > 0.7 ∧ elevation < 0.35 then
    (if pressure > 0.4 then .MANGROVE else .SWAMP)
  else if 0.3 < humidity ∧ humidity < 0.6 ∧ 0.3 < temperature ∧ temperature < 0.7 then
    (if elevation < 0.35 then .PLAIN else if elevation < 0.6 then .HILLS else .MOUNTAIN)
  else if humidity > 0.6 ∧ temperature > 0.3 ∧ global_o2 > 0.15 ∧ organic_layer > 0.1 then
    .FOREST
  else if humidity > 0.35 ∧ temperature > 0.5 then .SAVANNA
  else if humidity > 0.2 ∧ temperature > 0.2 then .GRASSLAND
  else .GRASSLAND

/-! ## Genome (src/pixel/genome.py) -/

/-- src/pixel/genome.py, `Genome`: a plain wrapper around a numeric vector. -/
structure Genome where
  data : List ℚ
  deriving Repr, DecidableEq

/-- Sum of squared componentwise differences; `np.linalg.norm(a - b) ** 2`
for equal-length vectors. -/
def sumSqDiff (a b : List ℚ) : ℚ :=
  ((a.zip b).map (fun p => (p.1 - p.2) ^ 2)).sum

/-- src/pixel/genome.py, `similarity`.  The parameter `d` stands for the float
`np.linalg.norm(a - b)`; the theorems constrain it by `0 ≤ d` and
`d ^ 2 = sumSqDiff`.  The source computes `sim = 1.0 - d / (d + 1e-9)` and
clips it into [0,1]; the separately computed `maxd` value is never used there.
Invalid input (shape mismatch) returns 0 instead of raising. -/
def similarity (g1 g2 : Genome) (d : ℚ) : ℚ :=
  if g1.data.length = g2.data.length then
    max 0 (min 1 (1 - d / (d + 1 / 1000000000)))
  else 0

/-! ## Grids and the World (src/world/world.py) -/

/-- A dense 2-D array of values, indexed row-major as `cell y x`
(numpy arrays are indexed `arr[y, x]` throughout the source). -/
structure Grid (α : Type) where
  rows : ℕ
  cols : ℕ
  cell : ℕ → ℕ → α

/-- An all-zero float grid (`np.zeros((h, w))`). -/
def Grid.zeros (h w : ℕ) : Grid ℚ := ⟨h, w, fun _ _ => 0⟩

/-- Pointwise scaling of a grid (`layer *= decay`). -/
def Grid.scale (g : Grid ℚ) (c : ℚ) : Grid ℚ :=
  { g with cell := fun y x => g.cell y x * c }

/-- Single-cell update of a grid (`arr[y, x] = v`). -/
def Grid.setCell (g : Grid α) (y x : ℕ) (v : α) : Grid α :=
  { g with cell := fun r c => if r = y ∧ c = x then v else g.cell r c }

/-- World state (src/world/world.py, class World).  `biome_map` is an option
because `load_snapshot` assigns `data.get("biome")`, which may be missing;
`organic_layer`/`mineral_layer` start as None before `_generate_or_load`. -/
structure World where
  seed : ℕ
  elevation : Grid ℚ
  temperature : Grid ℚ
  humidity : Grid ℚ
  pressure : Grid ℚ
  biome_map : Option (Grid ℕ)
  global_o2 : ℚ
  global_co2 : ℚ
  global_ch4 : ℚ
  organic_layer : Option (Grid ℚ)
  mineral_layer : Option (Grid ℚ)
  dirtyCells : List (ℤ × ℤ)

/-- src/world/world.py, `World._local_noise_at`: deterministic hash noise in [0,1].
Python `&` and the xor on nonnegative ints are `% 2 ^ 32` and `Nat.xor`. -/
def localNoiseAt (seed : ℕ) (x y : ℕ) : ℚ :=
  let v : ℕ := Nat.xor (Nat.xor (x * 73856093) (y * 19349663)) (seed % 2 ^ 32) % 2 ^ 32
  if v = 0 then 0 else (v : ℚ) / (2 ^ 32 - 1)

/-- src/world/world.py, `World._reclassify_cell`: re-run the classifier for a
single in-range cell; out-of-range coordinates are ignored. -/
def World.reclassifyCell (w : World) (x y : ℤ) : World :=
  if x < 0 ∨ (w.elevation.cols : ℤ) ≤ x ∨ y < 0 ∨ (w.elevation.rows : ℤ) ≤ y then w
  else
    let xn := x.toNat
    let yn := y.toNat
    let org := match w.organic_layer with
      | some g => g.cell yn xn
      | none => 0
    let minr := match w.mineral_layer with
      | some g => g.cell yn xn
      | none => 0
    let b := biome_from_env (w.elevation.cell yn xn) (w.temperature.cell yn xn)
      (w.humidity.cell yn xn) (w.pressure.cell yn xn)
      w.global_o2 org minr 0 (localNoiseAt w.seed xn yn)
    { w with biome_map := w.biome_map.map (fun bm => bm.setCell yn xn (biomeIndex b)) }

/-- src/world/world.py, `World.advance_environment`: decay the slow layers,
relax the global gases toward their baselines, then reclassify a bounded batch
of dirty cells (at most 512; `set.pop` order is the list order). -/
def World.advance_environment (w : World) (dt : ℚ) : World :=
  let w1 := { w with
    organic_layer := w.organic_layer.map (fun (g : Grid ℚ) => g.scale (1 - min (0.0001 * dt) 0.05)),
    mineral_layer := w.mineral_layer.map (fun (g : Grid ℚ) => g.scale (1 - min (0.00002 * dt) 0.02)) }
  let relax := min (0.00005 * dt) 0.01
  let w2 := { w1 with
    global_o2 := w1.global_o2 + (0.02 - w1.global_o2) * relax,
    global_co2 := w1.global_co2 + (0.0004 - w1.global_co2) * relax,
    global_ch4 := w1.global_ch4 + (0 - w1.global_ch4) * relax }
  let k := min 512 w2.dirtyCells.length
  let popped := w2.dirtyCells.take k
  let rest := w2.dirtyCells.drop k
  popped.foldl (fun (acc : World) (c : ℤ × ℤ) => acc.reclassifyCell c.1 c.2)
    { w2 with dirtyCells := rest }

/-- The data saved by src/world/world.py, `World.save_snapshot`
(`np.savez_compressed` with exactly these keys: elevation, temperature,
humidity, pressure, biome).  No organic/mineral layers are ever saved.
`biome` is optional on the load side (`data.get("biome")`). -/
structure Snapshot where
  elevation : Grid ℚ
  temperature : Grid ℚ
  humidity : Grid ℚ
  pressure : Grid ℚ
  biome : Option (Grid ℕ)

/-- src/world/world.py, `World.save_snapshot`. -/
def World.save_snapshot (w : World) : Snapshot :=
  ⟨w.elevation, w.temperature, w.humidity, w.pressure, w.biome_map⟩

/-- src/world/world.py, `World.load_snapshot`: replace the fields and
`biome_map` with the snapshot contents; re-create the organic/mineral layers
as zero grids only when the current layer is absent or its shape differs from
the loaded elevation grid; otherwise the existing layer is kept unchanged. -/
def World.load_snapshot (w : World) (s : Snapshot) : World :=
  let h := s.elevation.rows
  let c := s.elevation.cols
  { w with
    elevation := s.elevation,
    temperature := s.temperature,
    humidity := s.humidity,
    pressure := s.pressure,
    biome_map := s.biome,
    organic_layer := match w.organic_layer with
      | none => some (Grid.zeros h c)
      | some g => if g.rows = h ∧ g.cols = c then some g else some (Grid.zeros h c),
    mineral_layer := match w.mineral_layer with
      | none => some (Grid.zeros h c)
      | some g => if g.rows = h ∧ g.cols = c then some g else some (Grid.zeros h c) }

/-- src/world/world.py, `World.get_biome_at`: OCEAN outside the biome grid
bounds, otherwise the Biome member at the stored index.  The result is an
option: `none` models the `list(Biome)[idx]` IndexError that would occur if
the stored index were out of range, and the AttributeError on a missing map. -/
def World.get_biome_at (w : World) (x y : ℤ) : Option Biome :=
  match w.biome_map with
  | none => none
  | some bm =>
    if x < 0 ∨ (bm.cols : ℤ) ≤ x ∨ y < 0 ∨ (bm.rows : ℤ) ≤ y then some Biome.OCEAN
    else biomeList.get? (bm.cell y.toNat x.toNat)

/-! ## Metabolism (src/pixel/metabolism.py) -/

def IDX_ENERGY : ℕ := 0

def IDX_ORGANICS : ℕ := 1

def IDX_MINERALS : ℕ := 2

def IDX_MEMBRANE : ℕ := 3

def IDX_INFO : ℕ := 4

/-- src/pixel/metabolism.py, `init_internal_state` (one row): initial stocks
ENERGY 1.0, ORGANICS 0.5, MINERALS 0.5, MEMBRANE 0.3, INFO_ORDER 0.1. -/
def init_internal_state : List ℚ := [1, 0.5, 0.5, 0.3, 0.1]

/-- Element `i` of the flattened coefficient matrix built by
`_coeff_matrix_from_genome`: both the tiling branch (`np.tile(g, reps)[:expected]`,
when the genome is shorter than `n_internal * n_env`) and the truncation branch
(`g[:expected]`) give `g[i % len(g)]` for a nonempty genome. -/
def coeffAt (g : List ℚ) (i : ℕ) : ℚ := g.getD (i % g.length) 0

/-- Row `j` of `flux_internal = clip(mat @ env_vec, -1, 1)` in
`step_pixel_metabolism`. -/
def fluxInternal (g : List ℚ) (env : List ℚ) (j : ℕ) : ℚ :=
  max (-1) (min 1
    (((List.range env.length).map (fun k => coeffAt g (j * env.length + k) * env.getD k 0)).sum))

/-- src/pixel/metabolism.py, `step_pixel_metabolism`, acting on one agent's
stock vector.  Returns the new stocks and the value mirrored into the
manager's scalar `energies` entry.  With no genome the source applies the flat
energy decay and clamps only the energy slot; with a genome it applies the
clipped fluxes, subtracts basal plus membrane maintenance costs (the membrane
cost reads the pre-flux membrane stock), clamps every stock at 0 and mirrors
the energy slot.  Note: stocks are clamped from below only, never capped at 1. -/
def step_pixel_metabolism (genome : Option (List ℚ)) (stocks : List ℚ) (env : List ℚ)
    (dt : ℚ) : List ℚ × ℚ :=
  match genome with
  | none =>
    let e := max 0 (stocks.getD IDX_ENERGY 0 - 0.001 * dt)
    (stocks.set IDX_ENERGY e, e)
  | some g =>
    let membrane_cost := 0.0005 * stocks.getD IDX_MEMBRANE 0
    let stocks1 := stocks.mapIdx (fun j s => s + fluxInternal g env j * dt)
    let stocks2 := stocks1.set IDX_ENERGY
      (stocks1.getD IDX_ENERGY 0 - (0.001 + membrane_cost) * dt)
    let stocks3 := stocks2.map (fun s => max 0 s)
    (stocks3, stocks3.getD IDX_ENERGY 0)

/-! ## Reproduction gates (src/pixel/reproduction.py) -/

def REPLICATION_GENE_INDEX : ℕ := 0

def REPLICATION_GENE_THRESHOLD : ℚ := 0.7

def DIV_ENERGY : ℚ := 0.7

def DIV_ORGANICS : ℚ := 0.6

def DIV_MEMBRANE : ℚ := 0.5

def DIV_INFO : ℚ := 0.2

/-- src/pixel/reproduction.py, `has_basic_replication`: empty genome fails,
otherwise the replication gene must reach the threshold. -/
def has_basic_replication (g : List ℚ) : Bool :=
  if g.isEmpty then false
  else decide (g.getD REPLICATION_GENE_INDEX 0 ≥ REPLICATION_GENE_THRESHOLD)

/-- src/pixel/reproduction.py, `division_conditions_met`: each of the four
checked stocks must strictly exceed its division threshold. -/
def division_conditions_met (stocks : List ℚ)
    (idx_energy idx_org idx_mem idx_info : ℕ) : Bool :=
  if stocks.getD idx_energy 0 ≤ DIV_ENERGY then false
  else if stocks.getD idx_org 0 ≤ DIV_ORGANICS then false
  else if stocks.getD idx_mem 0 ≤ DIV_MEMBRANE then false
  else if stocks.getD idx_info 0 ≤ DIV_INFO then false
  else true

/-! ## Trait decoding (src/pixel/genome.py, src/pixel/traits.py) -/

/-- src/pixel/genome.py, `GENE_TRAIT_MAP`. -/
def GENE_TRAIT_MAP : List (ℕ × String) :=
  [(2, "photosynthesis"), (3, "chemosynthesis"), (4, "antifreeze_proteins"),
   (5, "heat_resistance"), (6, "cilia"), (7, "flagella")]

def TRAIT_GENE_THRESHOLD : ℚ := 0.6

/-- Restriction of src/pixel/traits.py, `TRAIT_PREREQS`, to the six traits
reachable from `GENE_TRAIT_MAP`; `decode_traits` never consults any other
entry of the full table. -/
def TRAIT_PREREQS : List (String × List String) :=
  [("heat_resistance", ["antifreeze_proteins", "thermoregulation"]),
   ("cilia", []),
   ("flagella", []),
   ("photosynthesis", ["chloroplasts"]),
   ("chemosynthesis", ["cell_wall"]),
   ("antifreeze_proteins", ["digestive_system"])]

/-- src/pixel/traits.py, `all_prereqs_met`. -/
def all_prereqs_met (trait : String) (owned : List String)
    (prereq_map : List (String × List String)) : Bool :=
  ((prereq_map.lookup trait).getD []).all (fun r => owned.contains r)

/-- src/pixel/genome.py, `decode_traits`: propose the traits whose gene value
reaches the activation threshold, then keep only those whose prerequisites
are contained in the proposed set itself (Python sets become lists;
only membership is ever observed). -/
def decode_traits (g : List ℚ) : List String :=
  let proposed := (GENE_TRAIT_MAP.filter
    (fun p => decide (p.1 < g.length) && decide (g.getD p.1 0 ≥ TRAIT_GENE_THRESHOLD))).map
    Prod.snd
  proposed.filter (fun t => all_prereqs_met t proposed TRAIT_PREREQS)

/-! ## Agents and the population manager (src/pixel/pixel_manager.py) -/

/-- One row of the manager's struct-of-arrays state (index = agent id).
`energyAvg`/`energyVar` are the slots of `_energy_avg`/`_energy_var`
(initialized to 1 and 0 at construction). -/
structure Agent where
  pos : ℚ × ℚ
  energy : ℚ
  stamina : ℚ
  alive : Bool
  birthTime : ℚ
  energyAvg : ℚ
  energyVar : ℚ
  species : String
  genome : Option (List ℚ)
  traits : List String
  stocks : List ℚ
  deriving Repr, DecidableEq, Inhabited

/-- src/pixel/pixel_manager.py, `PixelManager._motility_level`: genome gene 1
gives the base level (≥ 0.2 level 1, ≥ 0.6 level 2; genomes shorter than 2
give 0); trait upgrades can only raise it. -/
def motility_level (a : Agent) : ℕ :=
  let base : ℕ :=
    match a.genome with
    | none => 0
    | some g =>
      if g.length < 2 then 0
      else if g.getD 1 0 ≥ 0.6 then 2
      else if g.getD 1 0 ≥ 0.2 then 1
      else 0
  let lvl1 := if a.traits.contains "cilia" || a.traits.contains "flagella"
    then max base 1 else base
  if a.traits.contains "muscle" || a.traits.contains "legs" ||
     a.traits.contains "fins" || a.traits.contains "wings"
    then max lvl1 2 else lvl1

/-- Per-agent, per-tick oracle: the numpy RNG draws, the resource grid
feeding outcome, the sampled environment vector and the metabolism
try/except outcome, all of which are external inputs of the agent update. -/
structure TickOracle where
  eaten : Option ℚ
  walkU1 : ℚ
  walkU2 : ℚ
  moveTarget : ℚ × ℚ
  envInputs : List ℚ
  metabOk : Bool

/-- src/pixel/pixel_manager.py, `PixelManager._random_walk` with the two
`np.random.rand()` draws made explicit. -/
def random_walk (x y speed u1 u2 : ℚ) : ℚ × ℚ :=
  (x + (u1 - 0.5) * 2 * speed, y + (u2 - 0.5) * 2 * speed)

/-- The body of the per-agent loop of src/pixel/pixel_manager.py,
`PixelManager.step`: skip dead agents; update the energy statistics; derive
the metabolic stress; move or feed; run the metabolism step (an exception in
the try-block, `metabOk = false`, degrades to the flat energy decay); clamp
the position to the world extent; finally the death check marks the agent
dead when its energy is ≤ 0 (the biomass deposit into the world is the
world-side effect, modelled on `World.deposit`-level separately;
`applyDeath` is that final check). -/
def applyDeath (a : Agent) : Agent :=
  if a.energy ≤ 0 then { a with alive := false } else a

def agentTick (wsize : ℚ × ℚ) (dt : ℚ) (o : TickOracle) (a : Agent) : Agent :=
  if a.alive then
    let x := a.pos.1
    let y := a.pos.2
    let e := a.energy
    let alpha : ℚ := 0.01
    let newAvg := (1 - alpha) * a.energyAvg + alpha * e
    let newVar := (1 - alpha) * a.energyVar + alpha * (e - a.energyAvg) ^ 2
    let metabolic_stress := max 0 (0.5 - e) + newVar
    let mot := motility_level a
    let moved : (ℚ × ℚ) × ℚ :=
      if e < 0.4 then
        match o.eaten with
        | some gain => ((x, y), min 1 (e + max 0 gain))
        | none =>
          let speed : ℚ := if mot = 0 then 0.01 else if mot = 1 then 0.15 else 0.8
          (random_walk x y (speed * dt) o.walkU1 o.walkU2, e)
      else
        if mot = 0 then
          (random_walk x y ((0.01 + 0.04 * min 1 metabolic_stress) * dt) o.walkU1 o.walkU2, e)
        else if mot = 1 then
          (random_walk x y ((0.05 + 0.2 * min 1 metabolic_stress) * dt) o.walkU1 o.walkU2, e)
        else if metabolic_stress < 0.05 then
          (random_walk x y (0.1 * dt) o.walkU1 o.walkU2, e)
        else (o.moveTarget, e)
    let metab : List ℚ × ℚ :=
      if o.metabOk then step_pixel_metabolism a.genome a.stocks o.envInputs dt
      else (a.stocks, moved.2 - 0.001 * dt)
    let px := max 0 (min (wsize.1 - 1) moved.1.1)
    let py := max 0 (min (wsize.2 - 1) moved.1.2)
    applyDeath { a with
      pos := (px, py), energy := metab.2, energyAvg := newAvg, energyVar := newVar,
      stocks := metab.1 }
  else a

/-- The per-agent sweep `for i in range(self.count)` of `PixelManager.step`. -/
def tickPass (wsize : ℚ × ℚ) (dt : ℚ) (os : ℕ → TickOracle) : ℕ → List Agent → List Agent
  | _, [] => []
  | i, a :: rest => agentTick wsize dt (os i) a :: tickPass wsize dt os (i + 1) rest

/-- Per-parent oracle of the division pass: the standard-normal mutation
draws (`np.random.normal(scale=sigma)` = `sigma * z`) and the two uniform
draws for the child offset. -/
structure DivOracle where
  noiseZ : List ℚ
  u1 : ℚ
  u2 : ℚ

def DIVISION_STRESS_FLOOR : ℚ := 0.02

/-- The metabolic stress recomputed inside the division pass (src/pixel/
pixel_manager.py lines 411-417): deficit below the 0.5 energy target, read
from the internal ENERGY stock, plus the tracked energy variance. -/
def divisionStress (a : Agent) : ℚ :=
  max 0 (0.5 - a.stocks.getD IDX_ENERGY 0) + a.energyVar

/-- The early-continue chain of `_attempt_asexual_division` for one parent,
as one guard: the parent must be alive, have a genome passing
`has_basic_replication`, pass `division_conditions_met` on its stocks, and
its metabolic stress must not be below the 0.02 floor.  All four tests are
pure, so the chain of `continue` statements is this conjunction. -/
def division_gate (a : Agent) : Bool :=
  a.alive &&
  (match a.genome with
   | none => false
   | some g => has_basic_replication g) &&
  division_conditions_met a.stocks IDX_ENERGY IDX_ORGANICS IDX_MEMBRANE IDX_INFO &&
  !(decide (divisionStress a < DIVISION_STRESS_FLOOR))

/-- The post-division stock vector, applied to the parent and to the child
alike: `stocks * 0.4` followed by `stocks[IDX_ENERGY] *= 0.8`. -/
def splitStocks (stocks : List ℚ) : List ℚ :=
  let scaled := stocks.map (fun s => s * 0.4)
  scaled.set IDX_ENERGY (scaled.getD IDX_ENERGY 0 * 0.8)

/-- The stress-scaled child genome: `base + np.random.normal(scale=sigma)`
with `sigma = 0.003 + min(0.03, stress * 0.1)` and the standard-normal draws
supplied by the oracle. -/
def mutatedGenome (g : List ℚ) (stress : ℚ) (z : List ℚ) : List ℚ :=
  let sigma := 0.003 + min 0.03 (stress * 0.1)
  g.mapIdx (fun k b => b + sigma * z.getD k 0)

/-- The child agent written by `_spawn_child` plus the trait decode and the
stock overwrite that follow it, for parent `a` (the freshly spawned slot has
`energies = stamina = 0.8`, the `_energy_avg`/`_energy_var` slots still hold
their construction-time values 1 and 0, and the child spawns at a small
random offset from the parent). -/
def divChild (time : ℚ) (o : DivOracle) (a : Agent) (g : List ℚ) : Agent :=
  let childGenome := mutatedGenome g (divisionStress a) o.noiseZ
  { pos := (a.pos.1 + (o.u1 - 0.5) * 0.5, a.pos.2 + (o.u2 - 0.5) * 0.5),
    energy := 0.8, stamina := 0.8, alive := true, birthTime := time,
    energyAvg := 1, energyVar := 0, species := a.species,
    genome := some childGenome, traits := decode_traits childGenome,
    stocks := splitStocks a.stocks }

/-- One iteration of src/pixel/pixel_manager.py,
`PixelManager._attempt_asexual_division`, over parent index `i`: if the gate
passes, `_spawn_child` allocates a slot only below capacity (`child_idx is
None` means `continue`, leaving everything unchanged); on success the parent
keeps 40% of its stocks and loses a further 20% of the energy slot, and the
(parent index, child index) birth is logged.  The state carries the agent
list and the birth log. -/
def divStep (cap : ℕ) (time : ℚ) (o : DivOracle) (i : ℕ)
    (st : List Agent × List (ℕ × ℕ)) : List Agent × List (ℕ × ℕ) :=
  match st.1.get? i with
  | none => st
  | some a =>
    if division_gate a then
      if cap ≤ st.1.length then st
      else
        match a.genome with
        | none => st
        | some g =>
          ((st.1.set i { a with stocks := splitStocks a.stocks }).concat
              (divChild time o a g),
            st.2.concat (i, st.1.length))
    else st

/-- The division sweep: `for i in range(self.count)` with the bound evaluated
once at loop start (`k` counts the remaining iterations of that snapshot). -/
def divLoop (cap : ℕ) (time : ℚ) (os : ℕ → DivOracle) :
    ℕ → ℕ → List Agent × List (ℕ × ℕ) → List Agent × List (ℕ × ℕ)
  | 0, _, st => st
  | k + 1, i, st => divLoop cap time os k (i + 1) (divStep cap time (os i) i st)

/-- src/pixel/pixel_manager.py, `PixelManager._attempt_asexual_division`:
sweep the population count snapshotted at loop start. -/
def attempt_asexual_division (cap : ℕ) (time : ℚ) (os : ℕ → DivOracle)
    (agents : List Agent) : List Agent × List (ℕ × ℕ) :=
  divLoop cap time os agents.length 0 (agents, [])

/-- The manager state: fixed capacity, the first `count` slots as a list,
and the simulation clock. -/
structure PixelManager where
  capacity : ℕ
  agents : List Agent
  time : ℚ

/-- src/pixel/pixel_manager.py, `PixelManager.step` (the world-side
`advance_environment` call is `World.advance_environment` above; the
biological part advances the clock, runs the per-agent sweep, then the
asexual-division pass).  Also returns the pass's birth log. -/
def PixelManager.stepWithLog (pm : PixelManager) (wsize : ℚ × ℚ) (dt : ℚ)
    (os : ℕ → TickOracle) (ds : ℕ → DivOracle) : PixelManager × List (ℕ × ℕ) :=
  let time' := pm.time + dt
  let agents1 := tickPass wsize dt os 0 pm.agents
  let res := attempt_asexual_division pm.capacity time' ds agents1
  ({ pm with agents := res.1, time := time' }, res.2)

/-- `PixelManager.step`, state part. -/
def PixelManager.step (pm : PixelManager) (wsize : ℚ × ℚ) (dt : ℚ)
    (os : ℕ → TickOracle) (ds : ℕ → DivOracle) : PixelManager :=
  (pm.stepWithLog wsize dt os ds).1

/-- Population invariant used by the theorems: every live slot has strictly
positive energy (out-of-range indices read the default agent, which is dead). -/
def AgentInv (l : List Agent) : Prop :=
  ∀ j, (l.getD j default).alive = true → 0 < (l.getD j default).energy

/-! ## Concrete states used to instantiate the theorems -/

/-- A live agent in its spawn state (energies and stocks as written by
`spawn_random`/`init_internal_state`) whose genome has drifted to all ones. -/
def cexAgent : Agent :=
  { pos := (10, 10), energy := 1, stamina := 1, alive := true, birthTime := 0,
    energyAvg := 1, energyVar := 0, species := "proto",
    genome := some [1, 1, 1, 1, 1, 1, 1, 1],
    traits := decode_traits [1, 1, 1, 1, 1, 1, 1, 1],
    stocks := init_internal_state }

/-- A tick oracle: nothing eaten, centered RNG draws, a one-channel
environment sampled at 1.0, no exception in the metabolism try-block. -/
def cexOracle : TickOracle :=
  { eaten := none, walkU1 := 0.5, walkU2 := 0.5, moveTarget := (10, 10),
    envInputs := [1], metabOk := true }

/-- A division oracle with zero-mutation draws and centered offsets. -/
def cexDivOracle : DivOracle := { noiseZ := [0, 0, 0, 0, 0, 0, 0, 0], u1 := 0.5, u2 := 0.5 }

/-- A one-agent population with spare capacity. -/
def cexPM : PixelManager := { capacity := 4, agents := [cexAgent], time := 0 }

/-- A parent passing every division gate: replication gene 0.8 ≥ 0.7, stocks
strictly above every division threshold, stress 0.1 ≥ 0.02. -/
def divAgent : Agent :=
  { pos := (5, 5), energy := 0.8, stamina := 1, alive := true, birthTime := 0,
    energyAvg := 1, energyVar := 0.1, species := "proto",
    genome := some [0.8, 0, 0, 0, 0, 0, 0, 0],
    traits := [], stocks := [0.8, 0.7, 0.5, 0.6, 0.3] }

/-- A 2 by 2 constant float grid. -/
def constGrid (v : ℚ) : Grid ℚ := ⟨2, 2, fun _ _ => v⟩

/-- A world whose organic layer holds nonzero deposits on a 2 by 2 grid and
whose biome grid stores index 1 (WATER) everywhere. -/
def cexWorld : World :=
  { seed := 0, elevation := constGrid 0.5, temperature := constGrid 0.5,
    humidity := constGrid 0.5, pressure := constGrid 0.5,
    biome_map := some ⟨2, 2, fun _ _ => 1⟩,
    global_o2 := 0.02, global_co2 := 0.0004, global_ch4 := 0,
    organic_layer := some (constGrid 5), mineral_layer := some (constGrid 5),
    dirtyCells := [] }

/-- A snapshot of the same 2 by 2 shape (as produced by `save_snapshot`:
no organic or mineral entries). -/
def cexSnap : Snapshot :=
  ⟨constGrid 0.5, constGrid 0.5, constGrid 0.5, constGrid 0.5,
    some ⟨2, 2, fun _ _ => 0⟩⟩

/-! ## Theorems -/

theorem reclassifyCell_dirtyCells (w : World) (x y : ℤ) :
    (w.reclassifyCell x y).dirtyCells = w.dirtyCells := by
  unfold World.reclassifyCell
  split <;> rfl

theorem foldl_reclassifyCell_dirtyCells (l : List (ℤ × ℤ)) (w : World) :
    (l.foldl (fun (acc : World) (c : ℤ × ℤ) => acc.reclassifyCell c.1 c.2) w).dirtyCells
      = w.dirtyCells := by
  induction l generalizing w with
  | nil => rfl
  | cons c tl ih => rw [List.foldl_cons, ih, reclassifyCell_dirtyCells]

/-- Claim C4: a single `advance_environment(dt)` call removes and
reclassifies at most 512 cells from the dirty-cell set, no matter how many
cells were marked dirty before the call: the remaining set is exactly the
queue minus the processed batch of size `min 512 (queue length)`. -/
theorem advance_environment_reclassify_bounded (w : World) (dt : ℚ) :
    (w.advance_environment dt).dirtyCells
        = w.dirtyCells.drop (min 512 w.dirtyCells.length) ∧
    w.dirtyCells.length - (w.advance_environment dt).dirtyCells.length ≤ 512 := by
  have h1 : (w.advance_environment dt).dirtyCells
      = w.dirtyCells.drop (min 512 w.dirtyCells.length) := by
    unfold World.advance_environment
    dsimp only
    rw [foldl_reclassifyCell_dirtyCells]
  refine ⟨h1, ?_⟩
  rw [h1, List.length_drop]
  omega

/-- Claim C5: for genomes of equal shape, `similarity` returns 1 minus the
Euclidean distance normalized into [0,1) (the source normalizes `d` by
`d + 1e-9`), the result lies in [0,1]; shape mismatch returns 0 and nothing
raises.  The parameter `d` is the nonnegative square root of the summed
squared differences. -/
theorem similarity_spec (g1 g2 : Genome) (d : ℚ) (hd : 0 ≤ d)
    (hdist : d ^ 2 = sumSqDiff g1.data g2.data) :
    (0 ≤ similarity g1 g2 d ∧ similarity g1 g2 d ≤ 1) ∧
    (0 ≤ d / (d + 1 / 1000000000) ∧ d / (d + 1 / 1000000000) ≤ 1) ∧
    (g1.data.length = g2.data.length →
      similarity g1 g2 d = 1 - d / (d + 1 / 1000000000)) ∧
    (g1.data.length ≠ g2.data.length → similarity g1 g2 d = 0) := by
  have hpos : 0 < d + 1 / 1000000000 := by linarith
  have hfrac0 : 0 ≤ d / (d + 1 / 1000000000) := div_nonneg hd (le_of_lt hpos)
  have hfrac1 : d / (d + 1 / 1000000000) ≤ 1 := by
    rw [div_le_one hpos]; linarith
  have hval : max 0 (min 1 (1 - d / (d + 1 / 1000000000)))
      = 1 - d / (d + 1 / 1000000000) := by
    rw [min_eq_right (by linarith), max_eq_right (by linarith)]
  unfold similarity
  by_cases hlen : g1.data.length = g2.data.length
  · rw [if_pos hlen, hval]
    exact ⟨⟨by linarith, by linarith⟩, ⟨hfrac0, hfrac1⟩,
      fun _ => rfl, fun hne => absurd hlen hne⟩
  · rw [if_neg hlen]
    exact ⟨⟨le_refl 0, by norm_num⟩, ⟨hfrac0, hfrac1⟩,
      fun heq => absurd heq hlen, fun _ => rfl⟩

/-- Claim C6: the biome classifier is total: every input tuple yields exactly
one Biome member, and inputs that fail every guard of the cascade fall
through to grassland (the sufficient conditions below falsify each earlier
rule of the cascade, so the run reaches the final fallback). -/
theorem biome_from_env_total (e t h p o2 org minr veg noise : ℚ) :
    (∃! b : Biome, biome_from_env e t h p o2 org minr veg noise = b) ∧
    (0.2 ≤ e → e ≤ 0.5 → t ≤ 0.2 → h ≤ 0.2 → 0.02 ≤ org →
      biome_from_env e t h p o2 org minr veg noise = Biome.GRASSLAND) := by
  constructor
  · exact ⟨_, rfl, fun b hb => hb.symm⟩
  · intro he1 he2 ht hh ho
    delta biome_from_env
    dsimp only
    rw [if_neg (show ¬ e < 0.12 by intro hc; linarith),
        if_neg (show ¬ e < 0.16 by intro hc; linarith),
        if_neg (show ¬ (0.16 ≤ e ∧ e < 0.20) by intro hc; linarith),
        if_neg (show ¬ (e > 0.85 ∧ t < 0.35 ∧ p < 0.35) by intro hc; linarith),
        if_neg (show ¬ (e > 0.80 ∧ h < 0.25 ∧ t > 0.6) by intro hc; linarith),
        if_neg (show ¬ e > 0.80 by intro hc; linarith),
        if_neg (show ¬ (p < 0.25 ∧ e > 0.50) by intro hc; linarith),
        if_neg (show ¬ (t > 0.6 ∧ h < 0.45 ∧ p > 0.45) by intro hc; linarith),
        if_neg (show ¬ (t > 0.8 ∧ h < 0.35) by intro hc; linarith),
        if_neg (show ¬ org < 0.02 by intro hc; linarith),
        if_neg (show ¬ (p > 0.4 ∧ h > 0.8 ∧ t > 0.6 ∧ org > 0.2 ∧ o2 > 0.15) by
          intro hc; linarith),
        if_neg (show ¬ (h > 0.7 ∧ e < 0.35) by intro hc; linarith),
        if_neg (show ¬ (0.3 < h ∧ h < 0.6 ∧ 0.3 < t ∧ t < 0.7) by intro hc; linarith),
        if_neg (show ¬ (h > 0.6 ∧ t > 0.3 ∧ o2 > 0.15 ∧ org > 0.1) by intro hc; linarith),
        if_neg (show ¬ (h > 0.35 ∧ t > 0.5) by intro hc; linarith),
        if_neg (show ¬ (h > 0.2 ∧ t > 0.2) by intro hc; linarith)]

/-- Claim C8 (amended): after `load_snapshot` the organic/mineral layers are
zero-filled at the loaded grid's shape exactly when the pre-load layer was
absent or of a different shape; an existing layer that already matches the
loaded shape is kept unchanged (deposits survive the reload). -/
theorem load_snapshot_layer_reconstruction (w : World) (s : Snapshot) :
    ((w.organic_layer = none →
        (w.load_snapshot s).organic_layer
          = some (Grid.zeros s.elevation.rows s.elevation.cols)) ∧
     (∀ g, w.organic_layer = some g →
        ¬(g.rows = s.elevation.rows ∧ g.cols = s.elevation.cols) →
        (w.load_snapshot s).organic_layer
          = some (Grid.zeros s.elevation.rows s.elevation.cols)) ∧
     (∀ g, w.organic_layer = some g →
        g.rows = s.elevation.rows → g.cols = s.elevation.cols →
        (w.load_snapshot s).organic_layer = some g)) ∧
    ((w.mineral_layer = none →
        (w.load_snapshot s).mineral_layer
          = some (Grid.zeros s.elevation.rows s.elevation.cols)) ∧
     (∀ g, w.mineral_layer = some g →
        ¬(g.rows = s.elevation.rows ∧ g.cols = s.elevation.cols) →
        (w.load_snapshot s).mineral_layer
          = some (Grid.zeros s.elevation.rows s.elevation.cols)) ∧
     (∀ g, w.mineral_layer = some g →
        g.rows = s.elevation.rows → g.cols = s.elevation.cols →
        (w.load_snapshot s).mineral_layer = some g)) := by
  unfold World.load_snapshot
  dsimp only
  refine ⟨⟨?_, ?_, ?_⟩, ?_, ?_, ?_⟩
  · intro hn; rw [hn]
  · intro g hg hne; rw [hg]; dsimp only; rw [if_neg hne]
  · intro g hg hr hc; rw [hg]; dsimp only; rw [if_pos ⟨hr, hc⟩]
  · intro hn; rw [hn]
  · intro g hg hne; rw [hg]; dsimp only; rw [if_neg hne]
  · intro g hg hr hc; rw [hg]; dsimp only; rw [if_pos ⟨hr, hc⟩]

/-- Claim C9: `get_biome_at` never raises: out-of-range coordinates return
OCEAN, in-range coordinates return the Biome member at the index stored in
`biome_map[y, x]` (the stored index is in range: every write goes through
the enum-order mapping). -/
theorem get_biome_at_spec (w : World) (bm : Grid ℕ) (hbm : w.biome_map = some bm)
    (x y : ℤ) :
    ((x < 0 ∨ (bm.cols : ℤ) ≤ x ∨ y < 0 ∨ (bm.rows : ℤ) ≤ y) →
      w.get_biome_at x y = some Biome.OCEAN) ∧
    (0 ≤ x → x < (bm.cols : ℤ) → 0 ≤ y → y < (bm.rows : ℤ) →
      ∀ hidx : bm.cell y.toNat x.toNat < biomeList.length,
        w.get_biome_at x y = some (biomeList.get ⟨bm.cell y.toNat x.toNat, hidx⟩)) := by
  unfold World.get_biome_at
  rw [hbm]
  dsimp only
  constructor
  · intro hout
    exact if_pos hout
  · intro hx0 hx hy0 hy hidx
    rw [if_neg (show ¬(x < 0 ∨ (bm.cols : ℤ) ≤ x ∨ y < 0 ∨ (bm.rows : ℤ) ≤ y) by
      push_neg
      exact ⟨hx0, hx, hy0, hy⟩)]
    exact List.get?_eq_get hidx

theorem has_basic_replication_spec {g : List ℚ} (h : has_basic_replication g = true) :
    REPLICATION_GENE_THRESHOLD ≤ g.getD REPLICATION_GENE_INDEX 0 := by
  unfold has_basic_replication at h
  by_cases he : g.isEmpty
  · rw [if_pos he] at h; exact absurd h (by simp)
  · rw [if_neg he] at h; exact of_decide_eq_true h

theorem division_conditions_met_spec {s : List ℚ} {ie io im ii : ℕ}
    (h : division_conditions_met s ie io im ii = true) :
    DIV_ENERGY < s.getD ie 0 ∧ DIV_ORGANICS < s.getD io 0 ∧
    DIV_MEMBRANE < s.getD im 0 ∧ DIV_INFO < s.getD ii 0 := by
  unfold division_conditions_met at h
  split_ifs at h with h1 h2 h3 h4
  exact ⟨not_le.mp h1, not_le.mp h2, not_le.mp h3, not_le.mp h4⟩

theorem division_gate_spec {a : Agent} (h : division_gate a = true) :
    a.alive = true ∧
    (∃ g, a.genome = some g ∧ has_basic_replication g = true) ∧
    division_conditions_met a.stocks IDX_ENERGY IDX_ORGANICS IDX_MEMBRANE IDX_INFO = true ∧
    DIVISION_STRESS_FLOOR ≤ divisionStress a := by
  unfold division_gate at h
  simp only [Bool.and_eq_true, Bool.not_eq_true', decide_eq_false_iff_not, not_lt] at h
  obtain ⟨⟨⟨ha, hg⟩, hc⟩, hs⟩ := h
  refine ⟨ha, ?_, hc, hs⟩
  cases hx : a.genome with
  | none => rw [hx] at hg; exact absurd hg (by simp)
  | some g => rw [hx] at hg; exact ⟨g, rfl, hg⟩

theorem getD_map_mul (l : List ℚ) (c : ℚ) (n : ℕ) :
    (l.map (fun s => s * c)).getD n 0 = l.getD n 0 * c := by
  induction l generalizing n with
  | nil => simp
  | cons a tl ih =>
    cases n with
    | zero => simp
    | succ m => simpa using ih m

theorem splitStocks_getD (l : List ℚ) (j : ℕ) :
    (splitStocks l).getD j 0 =
      if j = IDX_ENERGY then l.getD IDX_ENERGY 0 * 0.4 * 0.8 else l.getD j 0 * 0.4 := by
  unfold splitStocks IDX_ENERGY
  dsimp only
  cases l with
  | nil =>
    cases j <;> simp
  | cons a tl =>
    cases j with
    | zero => simp
    | succ m => simpa using getD_map_mul tl (0.4 : ℚ) m

theorem divStep_cases (cap : ℕ) (time : ℚ) (o : DivOracle) (i : ℕ)
    (st : List Agent × List (ℕ × ℕ)) :
    divStep cap time o i st = st ∨
    ∃ a g, st.1.get? i = some a ∧ division_gate a = true ∧ a.genome = some g ∧
      st.1.length < cap ∧
      divStep cap time o i st =
        ((st.1.set i { a with stocks := splitStocks a.stocks }).concat (divChild time o a g),
          st.2.concat (i, st.1.length)) := by
  unfold divStep
  cases hg : st.1.get? i with
  | none => exact Or.inl rfl
  | some a =>
    dsimp only
    by_cases hgate : division_gate a = true
    · rw [if_pos hgate]
      by_cases hcap : cap ≤ st.1.length
      · rw [if_pos hcap]; exact Or.inl rfl
      · rw [if_neg hcap]
        cases hgen : a.genome with
        | none => exact Or.inl rfl
        | some g =>
          exact Or.inr ⟨a, g, rfl, hgate, hgen, not_le.mp hcap, by rw [hgen]⟩
    · rw [if_neg hgate]; exact Or.inl rfl

theorem divStep_length_mono (cap : ℕ) (time : ℚ) (o : DivOracle) (i : ℕ)
    (st : List Agent × List (ℕ × ℕ)) :
    st.1.length ≤ (divStep cap time o i st).1.length := by
  rcases divStep_cases cap time o i st with heq | ⟨a, g, _, _, _, _, heq⟩
  · rw [heq]
  · rw [heq]
    simp [List.concat_eq_append]

theorem divLoop_length_mono (cap : ℕ) (time : ℚ) (os : ℕ → DivOracle) :
    ∀ (k i : ℕ) (st : List Agent × List (ℕ × ℕ)),
      st.1.length ≤ (divLoop cap time os k i st).1.length := by
  intro k
  induction k with
  | zero => intro i st; exact le_refl _
  | succ m ih =>
    intro i st
    exact le_trans (divStep_length_mono cap time (os i) i st) (ih (i + 1) _)

theorem divLoop_log_spec (cap : ℕ) (time : ℚ) (os : ℕ → DivOracle) :
    ∀ (k i : ℕ) (st : List Agent × List (ℕ × ℕ)),
      ∀ pc ∈ (divLoop cap time os k i st).2,
        pc ∈ st.2 ∨ (i ≤ pc.1 ∧ pc.1 < i + k ∧ st.1.length ≤ pc.2) := by
  intro k
  induction k with
  | zero => intro i st pc hpc; exact Or.inl hpc
  | succ m ih =>
    intro i st pc hpc
    rcases ih (i + 1) (divStep cap time (os i) i st) pc hpc with hmem | ⟨h1, h2, h3⟩
    · rcases divStep_cases cap time (os i) i st with heq | ⟨a, g, _, _, _, _, heq⟩
      · rw [heq] at hmem; exact Or.inl hmem
      · rw [heq] at hmem
        dsimp only at hmem
        rw [List.concat_eq_append, List.mem_append] at hmem
        rcases hmem with hold | hnew
        · exact Or.inl hold
        · have hpc' := List.mem_singleton.mp hnew
          refine Or.inr ?_
          rw [hpc']
          exact ⟨le_refl i, by omega, le_refl _⟩
    · refine Or.inr ⟨by omega, by omega, ?_⟩
      exact le_trans (divStep_length_mono cap time (os i) i st) h3

/-- Claim C7: every birth recorded by one asexual-division pass has its
parent index strictly below the population count snapshotted at the start of
the pass and its child index at or beyond it: children appended mid-sweep
are never themselves visited as division candidates in the same tick. -/
theorem division_children_not_revisited (cap : ℕ) (time : ℚ) (os : ℕ → DivOracle)
    (agents : List Agent) :
    ∀ pc ∈ (attempt_asexual_division cap time os agents).2,
      pc.1 < agents.length ∧ agents.length ≤ pc.2 := by
  intro pc hpc
  rcases divLoop_log_spec cap time os agents.length 0 (agents, []) pc hpc with
    hmem | ⟨h1, h2, h3⟩
  · exact absurd hmem (List.not_mem_nil pc)
  · exact ⟨by omega, h3⟩

/-- Claim C10: when the population has reached capacity, a division attempt
is a complete no-op for the examined parent, whether or not it passes the
gates: `_spawn_child` returns None before any stock, energy, genome or
position is modified, so the whole manager state is unchanged. -/
theorem division_no_op_at_capacity (cap : ℕ) (time : ℚ) (o : DivOracle) (i : ℕ)
    (st : List Agent × List (ℕ × ℕ)) (h : cap ≤ st.1.length) :
    divStep cap time o i st = st := by
  rcases divStep_cases cap time o i st with heq | ⟨a, g, _, _, _, hlt, _⟩
  · exact heq
  · omega

/-- Claim C2: a child is created by the division pass only if, at the moment
of the check, the parent is alive, its replication gene (genome index 0)
reaches the 0.7 threshold, each of the ENERGY/ORGANICS/MEMBRANE/INFO_ORDER
stocks strictly exceeds its division threshold (0.7, 0.6, 0.5, 0.2), and the
metabolic stress (energy deficit below 0.5 plus energy variance) is at least
the 0.02 floor. -/
theorem division_gate_necessary (cap : ℕ) (time : ℚ) (o : DivOracle) (i : ℕ)
    (st : List Agent × List (ℕ × ℕ))
    (h : st.2.length < (divStep cap time o i st).2.length) :
    ∃ a g, st.1.get? i = some a ∧ a.alive = true ∧ a.genome = some g ∧
      REPLICATION_GENE_THRESHOLD ≤ g.getD REPLICATION_GENE_INDEX 0 ∧
      DIV_ENERGY < a.stocks.getD IDX_ENERGY 0 ∧
      DIV_ORGANICS < a.stocks.getD IDX_ORGANICS 0 ∧
      DIV_MEMBRANE < a.stocks.getD IDX_MEMBRANE 0 ∧
      DIV_INFO < a.stocks.getD IDX_INFO 0 ∧
      DIVISION_STRESS_FLOOR ≤ max 0 (0.5 - a.stocks.getD IDX_ENERGY 0) + a.energyVar ∧
      REPLICATION_GENE_THRESHOLD = 0.7 ∧ DIV_ENERGY = 0.7 ∧ DIV_ORGANICS = 0.6 ∧
      DIV_MEMBRANE = 0.5 ∧ DIV_INFO = 0.2 ∧ DIVISION_STRESS_FLOOR = 0.02 := by
  rcases divStep_cases cap time o i st with heq | ⟨a, g, hget, hgate, hgen, hlt, heq⟩
  · rw [heq] at h; exact absurd h (lt_irrefl _)
  · obtain ⟨ha, ⟨g', hg', hbr⟩, hc, hs⟩ := division_gate_spec hgate
    have hgg : g' = g := by
      rw [hgen] at hg'; exact (Option.some_inj.mp hg').symm
    rw [hgg] at hbr
    obtain ⟨h1, h2, h3, h4⟩ := division_conditions_met_spec hc
    exact ⟨a, g, hget, ha, hgen, has_basic_replication_spec hbr, h1, h2, h3, h4, hs,
      rfl, rfl, rfl, rfl, rfl, rfl⟩

/-- Claim C3: on a successful division the parent's stocks and the child's
stocks are both set to the 40% split of the parent's pre-division stocks
with the ENERGY slot further multiplied by 0.8; consequently, whenever the
parent's pre-division energy stock is nonnegative, the parent and child
energy stocks after division sum to at most the pre-division energy stock. -/
theorem division_resource_split (cap : ℕ) (time : ℚ) (o : DivOracle) (i : ℕ)
    (st : List Agent × List (ℕ × ℕ))
    (h : st.1.length < (divStep cap time o i st).1.length) :
    ∃ a, st.1.get? i = some a ∧
      (((divStep cap time o i st).1.getD i default).stocks = splitStocks a.stocks) ∧
      (((divStep cap time o i st).1.getD st.1.length default).stocks = splitStocks a.stocks) ∧
      (∀ j, (splitStocks a.stocks).getD j 0 =
        if j = IDX_ENERGY then a.stocks.getD IDX_ENERGY 0 * 0.4 * 0.8
        else a.stocks.getD j 0 * 0.4) ∧
      (0 ≤ a.stocks.getD IDX_ENERGY 0 →
        ((divStep cap time o i st).1.getD i default).stocks.getD IDX_ENERGY 0 +
          ((divStep cap time o i st).1.getD st.1.length default).stocks.getD IDX_ENERGY 0
          ≤ a.stocks.getD IDX_ENERGY 0) := by
  rcases divStep_cases cap time o i st with heq | ⟨a, g, hget, hgate, hgen, hlt, heq⟩
  · rw [heq] at h; exact absurd h (lt_irrefl _)
  · have hi : i < st.1.length := by
      have := List.get?_eq_some.mp hget
      exact this.1
    have hparent : ((divStep cap time o i st).1.getD i default)
        = { a with stocks := splitStocks a.stocks } := by
      rw [heq]
      dsimp only
      rw [List.getD_eq_getElem?_getD, List.concat_eq_append,
        List.getElem?_append_left (by simpa using hi),
        List.getElem?_set_eq_of_lt _ hi]
      rfl
    have hchild : ((divStep cap time o i st).1.getD st.1.length default)
        = divChild time o a g := by
      rw [heq]
      dsimp only
      rw [List.getD_eq_getElem?_getD]
      have hlen : (st.1.set i { a with stocks := splitStocks a.stocks }).length
          = st.1.length := by simp
      rw [show st.1.length = (st.1.set i { a with stocks := splitStocks a.stocks }).length
          from hlen.symm]
      rw [List.concat_eq_append, List.getElem?_concat_length]
      rfl
    refine ⟨a, hget, by rw [hparent], by rw [hchild]; rfl, splitStocks_getD a.stocks, ?_⟩
    intro hE
    rw [hparent, hchild]
    have hsplit := splitStocks_getD a.stocks IDX_ENERGY
    rw [if_pos rfl] at hsplit
    show (splitStocks a.stocks).getD IDX_ENERGY 0 + (splitStocks a.stocks).getD IDX_ENERGY 0
      ≤ a.stocks.getD IDX_ENERGY 0
    rw [hsplit]
    linarith

theorem default_agent_alive : (default : Agent).alive = false := rfl

theorem agentTick_eq (wsize : ℚ × ℚ) (dt : ℚ) (o : TickOracle) (a : Agent) :
    ∃ b : Agent, agentTick wsize dt o a = if a.alive then applyDeath b else a := by
  unfold agentTick
  exact ⟨_, rfl⟩

theorem applyDeath_alive_energy (a : Agent) :
    (applyDeath a).alive = true → 0 < (applyDeath a).energy := by
  unfold applyDeath
  split
  · intro h; exact absurd h (by simp)
  · rename_i hne
    intro _
    exact lt_of_not_ge hne

theorem agentTick_alive_energy (wsize : ℚ × ℚ) (dt : ℚ) (o : TickOracle) (a : Agent) :
    (agentTick wsize dt o a).alive = true → 0 < (agentTick wsize dt o a).energy := by
  obtain ⟨b, hb⟩ := agentTick_eq wsize dt o a
  rw [hb]
  by_cases ha : a.alive = true
  · rw [if_pos ha]; exact applyDeath_alive_energy b
  · rw [if_neg ha]; intro h; exact absurd h ha

theorem agentTick_dead (wsize : ℚ × ℚ) (dt : ℚ) (o : TickOracle) (a : Agent)
    (h : a.alive = false) : agentTick wsize dt o a = a := by
  obtain ⟨b, hb⟩ := agentTick_eq wsize dt o a
  rw [hb, if_neg (by simp [h])]

theorem tickPass_length (wsize : ℚ × ℚ) (dt : ℚ) (os : ℕ → TickOracle) :
    ∀ (i : ℕ) (l : List Agent), (tickPass wsize dt os i l).length = l.length := by
  intro i l
  induction l generalizing i with
  | nil => rfl
  | cons a tl ih => simp [tickPass, ih]

theorem tickPass_getD (wsize : ℚ × ℚ) (dt : ℚ) (os : ℕ → TickOracle) :
    ∀ (l : List Agent) (i j : ℕ), j < l.length →
      (tickPass wsize dt os i l).getD j default
        = agentTick wsize dt (os (i + j)) (l.getD j default) := by
  intro l
  induction l with
  | nil => intro i j hj; simp at hj
  | cons a tl ih =>
    intro i j hj
    cases j with
    | zero => simp [tickPass]
    | succ m =>
      have hm : m < tl.length := by simpa using hj
      simp only [tickPass, List.getD_cons_succ]
      rw [show i + (m + 1) = (i + 1) + m from by omega]
      exact ih (i + 1) m hm

theorem tickPass_inv (wsize : ℚ × ℚ) (dt : ℚ) (os : ℕ → TickOracle) (i : ℕ)
    (l : List Agent) : AgentInv (tickPass wsize dt os i l) := by
  intro j halive
  by_cases hj : j < l.length
  · rw [tickPass_getD wsize dt os l i j hj] at halive ⊢
    exact agentTick_alive_energy wsize dt (os (i + j)) _ halive
  · rw [List.getD_eq_default _ _ (by rw [tickPass_length]; omega)] at halive
    rw [default_agent_alive] at halive
    exact absurd halive Bool.false_ne_true

theorem tickPass_dead (wsize : ℚ × ℚ) (dt : ℚ) (os : ℕ → TickOracle) (i : ℕ)
    (l : List Agent) (j : ℕ) (h : (l.getD j default).alive = false) :
    ((tickPass wsize dt os i l).getD j default).alive = false := by
  by_cases hj : j < l.length
  · rw [tickPass_getD wsize dt os l i j hj, agentTick_dead _ _ _ _ h]
    exact h
  · rw [List.getD_eq_default _ _ (by rw [tickPass_length]; omega)]
    exact default_agent_alive

theorem divStep_getD_lt (cap : ℕ) (time : ℚ) (o : DivOracle) (i : ℕ)
    (st : List Agent × List (ℕ × ℕ)) (j : ℕ) (hj : j < st.1.length) :
    (((divStep cap time o i st).1.getD j default).alive = (st.1.getD j default).alive ∧
     ((divStep cap time o i st).1.getD j default).energy = (st.1.getD j default).energy) := by
  rcases divStep_cases cap time o i st with heq | ⟨a, g, hget, hgate, hgen, hlt, heq⟩
  · rw [heq]; exact ⟨rfl, rfl⟩
  · rw [heq]
    dsimp only
    rw [List.getD_eq_getElem?_getD, List.concat_eq_append,
      List.getElem?_append_left (by simpa using hj)]
    by_cases hji : j = i
    · subst hji
      rw [List.getElem?_set_eq_of_lt _ hj]
      have : st.1.getD j default = a := by
        rw [List.getD_eq_getElem?_getD, ← List.get?_eq_getElem?, hget]
        rfl
      rw [this]
      exact ⟨rfl, rfl⟩
    · rw [List.getElem?_set_ne (fun he => hji he.symm)]
      rw [List.getD_eq_getElem?_getD]
      exact ⟨rfl, rfl⟩

theorem divStep_inv (cap : ℕ) (time : ℚ) (o : DivOracle) (i : ℕ)
    (st : List Agent × List (ℕ × ℕ)) (hInv : AgentInv st.1) :
    AgentInv (divStep cap time o i st).1 := by
  intro j halive
  by_cases hj : j < st.1.length
  · obtain ⟨hA, hE⟩ := divStep_getD_lt cap time o i st j hj
    rw [hA] at halive
    rw [hE]
    exact hInv j halive
  · rcases divStep_cases cap time o i st with heq | ⟨a, g, hget, hgate, hgen, hlt, heq⟩
    · rw [heq] at halive ⊢
      exact hInv j halive
    · rw [heq] at halive ⊢
      dsimp only at halive ⊢
      by_cases hje : j = st.1.length
      · subst hje
        have hchild : ((st.1.set i { a with stocks := splitStocks a.stocks }).concat
            (divChild time o a g)).getD st.1.length default = divChild time o a g := by
          rw [List.getD_eq_getElem?_getD]
          rw [show st.1.length
              = (st.1.set i { a with stocks := splitStocks a.stocks }).length from by simp]
          rw [List.concat_eq_append, List.getElem?_concat_length]
          rfl
        rw [hchild]
        norm_num [divChild]
      · have hlen : ((st.1.set i { a with stocks := splitStocks a.stocks }).concat
            (divChild time o a g)).length ≤ j := by
          rw [List.length_concat, List.length_set]
          omega
        rw [List.getD_eq_default _ _ hlen] at halive
        rw [default_agent_alive] at halive
        exact absurd halive Bool.false_ne_true

theorem divLoop_getD_lt (cap : ℕ) (time : ℚ) (os : ℕ → DivOracle) :
    ∀ (k i : ℕ) (st : List Agent × List (ℕ × ℕ)) (j : ℕ), j < st.1.length →
      (((divLoop cap time os k i st).1.getD j default).alive
          = (st.1.getD j default).alive ∧
       ((divLoop cap time os k i st).1.getD j default).energy
          = (st.1.getD j default).energy) := by
  intro k
  induction k with
  | zero => intro i st j hj; exact ⟨rfl, rfl⟩
  | succ m ih =>
    intro i st j hj
    have hj' : j < (divStep cap time (os i) i st).1.length :=
      lt_of_lt_of_le hj (divStep_length_mono cap time (os i) i st)
    obtain ⟨hA1, hE1⟩ := ih (i + 1) (divStep cap time (os i) i st) j hj'
    obtain ⟨hA2, hE2⟩ := divStep_getD_lt cap time (os i) i st j hj
    exact ⟨hA1.trans hA2, hE1.trans hE2⟩

theorem divLoop_inv (cap : ℕ) (time : ℚ) (os : ℕ → DivOracle) :
    ∀ (k i : ℕ) (st : List Agent × List (ℕ × ℕ)), AgentInv st.1 →
      AgentInv (divLoop cap time os k i st).1 := by
  intro k
  induction k with
  | zero => intro i st h; exact h
  | succ m ih =>
    intro i st h
    exact ih (i + 1) _ (divStep_inv cap time (os i) i st h)

/-- Claim C1 (amended): after every manager tick, every live agent has
strictly positive (hence nonnegative) energy; an agent that was dead before
the tick is still dead after it (alive only transitions true to false, and
new live slots only appear by appending children at fresh indices); the
population count never shrinks.  The upper bound `energy ≤ 1` of the original
claim is refuted separately: the metabolism step clamps stocks only from
below. -/
theorem step_energy_nonneg_alive_monotone (pm : PixelManager) (wsize : ℚ × ℚ)
    (dt : ℚ) (os : ℕ → TickOracle) (ds : ℕ → DivOracle) :
    (∀ i, ((pm.step wsize dt os ds).agents.getD i default).alive = true →
      0 ≤ ((pm.step wsize dt os ds).agents.getD i default).energy) ∧
    (∀ i, i < pm.agents.length → (pm.agents.getD i default).alive = false →
      ((pm.step wsize dt os ds).agents.getD i default).alive = false) ∧
    pm.agents.length ≤ (pm.step wsize dt os ds).agents.length := by
  have hag : (pm.step wsize dt os ds).agents
      = (divLoop pm.capacity (pm.time + dt) ds (tickPass wsize dt os 0 pm.agents).length 0
          (tickPass wsize dt os 0 pm.agents, [])).1 := rfl
  refine ⟨?_, ?_, ?_⟩
  · intro i halive
    rw [hag] at halive ⊢
    exact le_of_lt (divLoop_inv pm.capacity (pm.time + dt) ds _ 0
      (tickPass wsize dt os 0 pm.agents, []) (tickPass_inv wsize dt os 0 pm.agents) i halive)
  · intro i hi hdead
    rw [hag]
    have hlen1 : i < (tickPass wsize dt os 0 pm.agents).length := by
      rw [tickPass_length]; exact hi
    obtain ⟨hA, _⟩ := divLoop_getD_lt pm.capacity (pm.time + dt) ds
      (tickPass wsize dt os 0 pm.agents).length 0 (tickPass wsize dt os 0 pm.agents, []) i hlen1
    rw [hA]
    exact tickPass_dead wsize dt os 0 pm.agents i hdead
  · rw [hag]
    calc pm.agents.length = (tickPass wsize dt os 0 pm.agents).length :=
          (tickPass_length wsize dt os 0 pm.agents).symm
      _ ≤ _ := divLoop_length_mono pm.capacity (pm.time + dt) ds
          (tickPass wsize dt os 0 pm.agents).length 0 (tickPass wsize dt os 0 pm.agents, [])

section ConcreteEvaluation

attribute [local semireducible] Rat.add Rat.mul Rat.sub Rat.inv Rat.ofScientific

/-- Claim C1, counterexample to the stated upper bound: one tick of the
manager on a live spawn-state agent with an all-ones genome in a one-channel
environment sampled at 1.0 leaves the agent alive with energy
1.99885 > 1 (the metabolism step clamps stocks from below only and mirrors
the unclamped energy stock into `energies`). -/
theorem step_energy_can_exceed_one :
    ((cexPM.step (100, 100) 1 (fun _ => cexOracle) (fun _ => cexDivOracle)).agents.getD 0
        default).alive = true ∧
    1 < ((cexPM.step (100, 100) 1 (fun _ => cexOracle) (fun _ => cexDivOracle)).agents.getD 0
        default).energy := by
  decide

/-- Witness for the amended claim C1 at a concrete state. -/
theorem step_energy_nonneg_alive_monotone_witness :
    0 ≤ ((cexPM.step (100, 100) 1 (fun _ => cexOracle) (fun _ => cexDivOracle)).agents.getD 0
        default).energy :=
  (step_energy_nonneg_alive_monotone cexPM (100, 100) 1 (fun _ => cexOracle)
    (fun _ => cexDivOracle)).1 0 (by decide)

/-- Witness for claim C2 at a concrete dividing parent. -/
theorem division_gate_necessary_witness :
    (([] : List (ℕ × ℕ)).length < (divStep 4 0 cexDivOracle 0 ([divAgent], [])).2.length) ∧
    (∃ a g, [divAgent].get? 0 = some a ∧ a.alive = true ∧ a.genome = some g ∧
      REPLICATION_GENE_THRESHOLD ≤ g.getD REPLICATION_GENE_INDEX 0 ∧
      DIV_ENERGY < a.stocks.getD IDX_ENERGY 0 ∧
      DIV_ORGANICS < a.stocks.getD IDX_ORGANICS 0 ∧
      DIV_MEMBRANE < a.stocks.getD IDX_MEMBRANE 0 ∧
      DIV_INFO < a.stocks.getD IDX_INFO 0 ∧
      DIVISION_STRESS_FLOOR ≤ max 0 (0.5 - a.stocks.getD IDX_ENERGY 0) + a.energyVar ∧
      REPLICATION_GENE_THRESHOLD = 0.7 ∧ DIV_ENERGY = 0.7 ∧ DIV_ORGANICS = 0.6 ∧
      DIV_MEMBRANE = 0.5 ∧ DIV_INFO = 0.2 ∧ DIVISION_STRESS_FLOOR = 0.02) :=
  ⟨by decide, division_gate_necessary 4 0 cexDivOracle 0 ([divAgent], []) (by decide)⟩

/-- Witness for claim C3 at a concrete dividing parent. -/
theorem division_resource_split_witness :
    (([divAgent] : List Agent).length < (divStep 4 0 cexDivOracle 0 ([divAgent], [])).1.length) ∧
    (∃ a, [divAgent].get? 0 = some a ∧
      (((divStep 4 0 cexDivOracle 0 ([divAgent], [])).1.getD 0 default).stocks
        = splitStocks a.stocks) ∧
      (((divStep 4 0 cexDivOracle 0 ([divAgent], [])).1.getD 1 default).stocks
        = splitStocks a.stocks) ∧
      (∀ j, (splitStocks a.stocks).getD j 0 =
        if j = IDX_ENERGY then a.stocks.getD IDX_ENERGY 0 * 0.4 * 0.8
        else a.stocks.getD j 0 * 0.4) ∧
      (0 ≤ a.stocks.getD IDX_ENERGY 0 →
        ((divStep 4 0 cexDivOracle 0 ([divAgent], [])).1.getD 0 default).stocks.getD
            IDX_ENERGY 0 +
          ((divStep 4 0 cexDivOracle 0 ([divAgent], [])).1.getD 1 default).stocks.getD
            IDX_ENERGY 0
          ≤ a.stocks.getD IDX_ENERGY 0)) :=
  ⟨by decide, division_resource_split 4 0 cexDivOracle 0 ([divAgent], []) (by decide)⟩

/-- Witness for claim C5: vectors [0,0] and [3,4] at Euclidean distance 5. -/
theorem similarity_spec_witness :
    (0 ≤ (5 : ℚ) ∧ (5 : ℚ) ^ 2 = sumSqDiff [0, 0] [3, 4]) ∧
    similarity ⟨[0, 0]⟩ ⟨[3, 4]⟩ 5 = 1 - 5 / (5 + 1 / 1000000000) :=
  ⟨⟨by decide, by decide⟩,
    (similarity_spec ⟨[0, 0]⟩ ⟨[3, 4]⟩ 5 (by decide) (by decide)).2.2.1 rfl⟩

/-- Witness for claim C6: a mid-elevation, cold, dry, organic-bearing cell
falls through the whole cascade to grassland. -/
theorem biome_from_env_total_witness :
    ((0.2 : ℚ) ≤ 0.3 ∧ (0.3 : ℚ) ≤ 0.5 ∧ (0.1 : ℚ) ≤ 0.2 ∧ (0.15 : ℚ) ≤ 0.2 ∧
      (0.02 : ℚ) ≤ 0.05) ∧
    biome_from_env 0.3 0.1 0.15 0.5 0.02 0.05 0 0 0.5 = Biome.GRASSLAND :=
  ⟨by decide,
    (biome_from_env_total 0.3 0.1 0.15 0.5 0.02 0.05 0 0 0.5).2 (by decide) (by decide)
      (by decide) (by decide) (by decide)⟩

/-- Witness for claim C7: the concrete pass spawns child 1 from parent 0. -/
theorem division_children_not_revisited_witness :
    ((0, 1) ∈ (attempt_asexual_division 4 0 (fun _ => cexDivOracle) [divAgent]).2) ∧
    ((0 : ℕ) < 1 ∧ (1 : ℕ) ≤ 1) :=
  ⟨by decide,
    division_children_not_revisited 4 0 (fun _ => cexDivOracle) [divAgent] (0, 1) (by decide)⟩

/-- Claim C8, counterexample: loading a same-shape snapshot into a world
whose organic layer already holds deposits keeps the nonzero layer instead of
zero-filling it. -/
theorem load_snapshot_keeps_nonzero_layer :
    ¬ ∀ g, (cexWorld.load_snapshot cexSnap).organic_layer = some g →
        ∀ i j, g.cell i j = 0 := by
  intro hall
  have h5 := hall (constGrid 5) rfl 0 0
  exact absurd h5 (by decide)

/-- Witness for the amended claim C8: the matching-shape layer is kept. -/
theorem load_snapshot_layer_reconstruction_witness :
    (cexWorld.load_snapshot cexSnap).organic_layer = some (constGrid 5) :=
  (load_snapshot_layer_reconstruction cexWorld cexSnap).1.2.2 (constGrid 5) rfl rfl rfl

/-- Witness for claim C9: out-of-range returns OCEAN; the in-range cell
stores index 1, which is WATER. -/
theorem get_biome_at_spec_witness :
    cexWorld.get_biome_at (-1) 0 = some Biome.OCEAN ∧
    cexWorld.get_biome_at 0 0 = some Biome.WATER :=
  ⟨(get_biome_at_spec cexWorld ⟨2, 2, fun _ _ => 1⟩ rfl (-1) 0).1 (by decide),
   (get_biome_at_spec cexWorld ⟨2, 2, fun _ _ => 1⟩ rfl 0 0).2 (by decide) (by decide)
     (by decide) (by decide) (by decide)⟩

/-- Witness for claim C10: at capacity 1 the same gate-passing parent
divides no more: the state is returned unchanged. -/
theorem division_no_op_at_capacity_witness :
    (1 ≤ ([divAgent] : List Agent).length) ∧
    divStep 1 0 cexDivOracle 0 ([divAgent], []) = ([divAgent], []) :=
  ⟨by decide, division_no_op_at_capacity 1 0 cexDivOracle 0 ([divAgent], []) (by decide)⟩

end ConcreteEvaluation

end PixelDei
